import Mathlib

/-!
# The stdio pipe bridge of dart-multistockfish

A shallow embedding of the four bridge files

* `pkgs/multistockfish_chess/src/stockfish_hce.cpp`
* `pkgs/multistockfish_chess/ios/Classes/stockfish_nnue.cpp`
* `pkgs/multistockfish_fairy/ios/Classes/multistockfish_fairy.cpp`
* `pkgs/multistockfish_sf16/ios/Classes/stockfish16.cpp`

Bytes (`char`) are natural numbers, `0` is the NUL byte.  A `char *` is the
list of bytes stored from the pointer onwards.  The process (descriptor
table, pipes) is an explicit state that every system call transforms.
-/

namespace MultiStockfish

/-! ## C strings -/

/-- The bytes of a C string: everything before the first NUL byte. -/
def cstr : List Nat → List Nat
  | [] => []
  | c :: cs => if c = 0 then [] else c :: cstr cs

/-- The libc function strlen: the number of bytes before the first NUL. -/
def strlen : List Nat → Nat
  | [] => 0
  | c :: cs => if c = 0 then 0 else strlen cs + 1

/-- The libc function strcmp on two byte arrays; the end of an array reads as NUL.
The result is the difference of the first two bytes that differ, or 0. -/
def strcmp : List Nat → List Nat → Int
  | [], [] => 0
  | [], b :: _ => 0 - (b : Int)
  | a :: _, [] => (a : Int)
  | a :: as, b :: bs =>
    if a = b then (if a = 0 then 0 else strcmp as bs) else (a : Int) - (b : Int)

/-- The seven bytes of the string literal "quitok\n" (without its terminator). -/
def QUITOK : List Nat := [113, 117, 105, 116, 111, 107, 10]

/-- The array the pointer QUITOK points to: the literal and its terminating NUL. -/
def QUITOK_mem : List Nat := QUITOK ++ [0]

/-- The global `char buffer[80]` as the program starts (zero initialised). -/
def buffer0 : List Nat := List.replicate 80 0

/-! ## `stockfish_stdout_read` -/

/-- What one call of read(2) did: it failed with a negative return value, or it
stored `data` at the start of the buffer and returned the number of bytes. -/
inductive ReadOutcome where
  | failure (ret : Nat)
  | bytes (data : List Nat)
deriving DecidableEq, Repr

/-- The value returned by read(2): `-(ret+1)` on failure, the byte count otherwise. -/
def ReadOutcome.count : ReadOutcome → Int
  | .failure ret => -((ret : Int) + 1)
  | .bytes data => (data.length : Int)

/-- The bytes read(2) delivered: none on failure. -/
def ReadOutcome.data : ReadOutcome → List Nat
  | .failure _ => []
  | .bytes data => data

/-- The buffer after read(2): the delivered bytes overwrite its first cells. -/
def ReadOutcome.store (buffer : List Nat) : ReadOutcome → List Nat
  | .failure _ => buffer
  | .bytes data => data ++ buffer.drop data.length

/-- The function stockfish_stdout_read, given what its call of
`read(PARENT_READ_FD, buffer, sizeof(buffer) - 1)` did.  Returns the pointer
result (`none` is NULL, `some b` is the buffer with contents `b`) and the new
contents of the global buffer. -/
def stockfish_stdout_read (buffer : List Nat) (r : ReadOutcome) :
    Option (List Nat) × List Nat :=
  let count := r.count
  let buffer := r.store buffer
  if count < 0 then (none, buffer)
  else
    let buffer := buffer.set count.toNat 0
    if strcmp buffer QUITOK_mem = 0 then (none, buffer)
    else (some buffer, buffer)

/-- The buffer after a read of `data` and the store of the terminator. -/
def stored (buffer data : List Nat) : List Nat :=
  ((ReadOutcome.bytes data).store buffer).set data.length 0

/-- The byte sequence contains no occurrence of the sentinel. -/
def SentinelFree (l : List Nat) : Prop :=
  ∀ pre post : List Nat, l ≠ pre ++ QUITOK ++ post

/-- The contents of the buffer after each of a series of reads that deliver the
given chunks, every read followed by the store of the terminator. -/
def buffers_after : List Nat → List (List Nat) → List (List Nat)
  | _, [] => []
  | buffer, c :: cs => stored buffer c :: buffers_after (stored buffer c) cs

/-- Successive calls of stockfish_stdout_read, one per read outcome, on the
shared global buffer; the results in call order. -/
def stdout_reads : List Nat → List ReadOutcome → List (Option (List Nat))
  | _, [] => []
  | buffer, r :: rs =>
    (stockfish_stdout_read buffer r).1 :: stdout_reads (stockfish_stdout_read buffer r).2 rs

/-- The fragments handed to the caller before the first NULL result, each read
as a C string, concatenated. -/
def fragments_before_null : List (Option (List Nat)) → List Nat
  | [] => []
  | none :: _ => []
  | some b :: rest => cstr b ++ fragments_before_null rest

/-! ## The process: descriptor table and pipes -/

/-- What an open descriptor refers to. -/
inductive FileRef where
  | pipeRead (p : Nat)
  | pipeWrite (p : Nat)
  | other (id : Nat)
deriving DecidableEq, Repr

/-- The state of the process seen by the bridge: the descriptor table (with the
limit on descriptor numbers), the bytes in flight in every pipe, and the number of
pipes created so far. -/
structure Proc where
  fdLimit : Nat
  fds : Nat → Option FileRef
  pipeData : Nat → List Nat
  nextPipe : Nat

/-- One entry of a table replaced. -/
def setAt {α : Type} (f : Nat → α) (i : Nat) (v : α) : Nat → α :=
  fun j => if j = i then v else f j

/-- The lowest unused descriptor among `i, i+1, ..., i+n-1`, if there is one. -/
def lowestFreeFrom (fds : Nat → Option FileRef) : Nat → Nat → Option Nat
  | 0, _ => none
  | n + 1, i => if (fds i).isNone then some i else lowestFreeFrom fds n (i + 1)

/-- The lowest unused descriptor below the limit. -/
def lowestFree (limit : Nat) (fds : Nat → Option FileRef) : Option Nat :=
  lowestFreeFrom fds limit 0

/-- The system call pipe(2): a new pipe whose read end and write end get the two
lowest unused descriptors; nothing changes when two descriptors are not available. -/
def sysPipe (p : Proc) : Option (Nat × Nat) × Proc :=
  match lowestFree p.fdLimit p.fds with
  | none => (none, p)
  | some r =>
    match lowestFree p.fdLimit (setAt p.fds r (some (.pipeRead p.nextPipe))) with
    | none => (none, p)
    | some w =>
      (some (r, w),
        { p with
          fds := setAt (setAt p.fds r (some (.pipeRead p.nextPipe))) w
                  (some (.pipeWrite p.nextPipe))
          pipeData := setAt p.pipeData p.nextPipe []
          nextPipe := p.nextPipe + 1 })

/-- The libc call `pipe(arr)`: returns 0 and fills `arr[0]`, `arr[1]`, or returns -1
and leaves the array alone. -/
def pipe (p : Proc) (arr : Nat → Nat) : Int × (Nat → Nat) × Proc :=
  match sysPipe p with
  | (some (r, w), p1) => (0, setAt (setAt arr 0 r) 1 w, p1)
  | (none, p1) => (-1, arr, p1)

/-- The system call dup2(2). -/
def dup2 (p : Proc) (oldfd newfd : Nat) : Int × Proc :=
  match p.fds oldfd with
  | none => (-1, p)
  | some f =>
    if oldfd = newfd then ((newfd : Int), p)
    else if p.fdLimit ≤ newfd then (-1, p)
    else ((newfd : Int), { p with fds := setAt p.fds newfd (some f) })

/-- The system call close(2). -/
def close (p : Proc) (fd : Nat) : Int × Proc :=
  match p.fds fd with
  | none => (-1, p)
  | some _ => (0, { p with fds := setAt p.fds fd none })

/-- The system call write(2), every accepted write being accepted in full: on the
write end of a pipe the bytes are appended to the pipe; on another open file they
are accepted and leave the pipes alone; otherwise the call fails.  A pipe whose read
end is open nowhere is not told apart: the bytes are appended to it all the same,
where the system would answer EPIPE, and no descriptor can read them. -/
def write (p : Proc) (fd : Nat) (data : List Nat) : Int × Proc :=
  match p.fds fd with
  | some (.pipeWrite q) =>
    ((data.length : Int), { p with pipeData := setAt p.pipeData q (p.pipeData q ++ data) })
  | some (.other _) => ((data.length : Int), p)
  | _ => (-1, p)

/-- The system call read(2) asked for at most `nbytes` bytes, when the kernel
delivers at most `deliver` bytes this time: on the read end of a pipe the bytes
leave the pipe; another open file is at end of file; otherwise the call fails. -/
def read (p : Proc) (fd : Nat) (nbytes deliver : Nat) : ReadOutcome × Proc :=
  match p.fds fd with
  | some (.pipeRead q) =>
    (.bytes ((p.pipeData q).take (min nbytes deliver)),
      { p with pipeData := setAt p.pipeData q ((p.pipeData q).drop (min nbytes deliver)) })
  | some (.other _) => (.bytes [], p)
  | _ => (.failure 0, p)

/-- The bytes a reader of descriptor `fd` can still get. -/
def readable (p : Proc) (fd : Nat) : List Nat :=
  match p.fds fd with
  | some (.pipeRead q) => p.pipeData q
  | _ => []

/-! ## The bridge -/

def NUM_PIPES : Nat := 2
def PARENT_WRITE_PIPE : Nat := 0
def PARENT_READ_PIPE : Nat := 1
def READ_FD : Nat := 0
def WRITE_FD : Nat := 1
def STDIN_FILENO : Nat := 0
def STDOUT_FILENO : Nat := 1

/-- The globals of one bridge file: `int pipes[NUM_PIPES][2]` and `char buffer[80]`. -/
structure Bridge where
  pipes : Nat → Nat → Nat
  buffer : List Nat

/-- The globals as the program starts (zero initialised). -/
def Bridge.initial : Bridge := { pipes := fun _ _ => 0, buffer := buffer0 }

def PARENT_READ_FD (s : Bridge) : Nat := s.pipes PARENT_READ_PIPE READ_FD
def PARENT_WRITE_FD (s : Bridge) : Nat := s.pipes PARENT_WRITE_PIPE WRITE_FD
def CHILD_READ_FD (s : Bridge) : Nat := s.pipes PARENT_WRITE_PIPE READ_FD
def CHILD_WRITE_FD (s : Bridge) : Nat := s.pipes PARENT_READ_PIPE WRITE_FD

/-- The function stockfish_init (the same in the four files): the results of both
pipe calls are dropped and 0 is returned. -/
def stockfish_init (s : Bridge) (p : Proc) : Int × Bridge × Proc :=
  let r1 := pipe p (s.pipes PARENT_READ_PIPE)
  let s1 : Bridge := { s with pipes := setAt s.pipes PARENT_READ_PIPE r1.2.1 }
  let r2 := pipe r1.2.2 (s1.pipes PARENT_WRITE_PIPE)
  let s2 : Bridge := { s1 with pipes := setAt s1.pipes PARENT_WRITE_PIPE r2.2.1 }
  (0, s2, r2.2.2)

/-- Both pipe creations of stockfish_init succeed from this state. -/
def initCreatesBoth (p : Proc) : Bool :=
  (sysPipe p).1.isSome && (sysPipe (sysPipe p).2).1.isSome

/-- The four bridge files. -/
inductive Variant where
  | hce
  | nnue
  | fairy
  | sf16
deriving DecidableEq, Repr

/-- The first lines of stockfish_main in stockfish_nnue.cpp and stockfish16.cpp:
two dup2 calls, then the two close calls. -/
def redirect_closing (s : Bridge) (p : Proc) : Proc :=
  let p := (dup2 p (CHILD_READ_FD s) STDIN_FILENO).2
  let p := (dup2 p (CHILD_WRITE_FD s) STDOUT_FILENO).2
  let p := (close p (CHILD_READ_FD s)).2
  (close p (CHILD_WRITE_FD s)).2

/-- The first lines of stockfish_main in stockfish_hce.cpp and
multistockfish_fairy.cpp: the two dup2 calls only. -/
def redirect_keeping (s : Bridge) (p : Proc) : Proc :=
  let p := (dup2 p (CHILD_READ_FD s) STDIN_FILENO).2
  (dup2 p (CHILD_WRITE_FD s) STDOUT_FILENO).2

/-- The redirection step of stockfish_main in each file. -/
def redirect : Variant → Bridge → Proc → Proc
  | .hce => redirect_keeping
  | .nnue => redirect_closing
  | .fairy => redirect_keeping
  | .sf16 => redirect_closing

/-- Output through `std::cout`, flushed: a write on descriptor 1, whose result the
caller does not look at. -/
def cout_write (p : Proc) (data : List Nat) : Proc :=
  (write p STDOUT_FILENO data).2

/-- One action of an engine on the standard streams. -/
inductive EngineOp where
  | readStdin (nbytes deliver : Nat)
  | writeStdout (data : List Nat)
deriving DecidableEq, Repr

/-- An engine entry point (the `main` of a variant namespace), as far as the
bridge can see it: its actions on the standard streams until its command loop
returns, and its exit code. -/
structure Engine where
  ops : List EngineOp
  exitCode : Int

/-- One engine action: the process after it and the bytes it got from stdin. -/
def engine_step (p : Proc) : EngineOp → Proc × List Nat
  | .readStdin nbytes deliver =>
    let r := read p STDIN_FILENO nbytes deliver
    (r.2, r.1.data)
  | .writeStdout data => (cout_write p data, [])

/-- The engine actions in order: the process afterwards and all bytes read from stdin. -/
def engine_run : Proc → List EngineOp → Proc × List Nat
  | p, [] => (p, [])
  | p, op :: ops =>
    let r := engine_step p op
    let rest := engine_run r.1 ops
    (rest.1, r.2 ++ rest.2)

/-- The output of an engine: what it writes to stdout, in order. -/
def engine_output : List EngineOp → List (List Nat)
  | [] => []
  | .readStdin _ _ :: ops => engine_output ops
  | .writeStdout data :: ops => data :: engine_output ops

/-- The function stockfish_main: redirection, the engine entry point, then
`std::cout << QUITOK << std::flush`; returns the exit code of the engine. -/
def stockfish_main (v : Variant) (e : Engine) (s : Bridge) (p : Proc) : Int × Proc :=
  let p := redirect v s p
  let p := (engine_run p e.ops).1
  let exitCode := e.exitCode
  let p := cout_write p QUITOK
  (exitCode, p)

/-- The function stockfish_stdin_write: `write(PARENT_WRITE_FD, data, strlen(data))`. -/
def stockfish_stdin_write (s : Bridge) (p : Proc) (data : List Nat) : Int × Proc :=
  write p (PARENT_WRITE_FD s) (data.take (strlen data))

/-- One event on the command channel of a running instance: the caller passes a
command string to stockfish_stdin_write, or the engine reads its standard input. -/
inductive IoEvent where
  | send (str : List Nat)
  | engineRead (nbytes deliver : Nat)
deriving DecidableEq, Repr

/-- A series of events on the command channel: the values returned by the calls of
stockfish_stdin_write, the bytes the engine read from descriptor 0, and the process
afterwards.  A command string `str` is passed as the array `str` followed by NUL. -/
def io_run (s : Bridge) : Proc → List IoEvent → List Int × List Nat × Proc
  | p, [] => ([], [], p)
  | p, .send str :: evs =>
    let r := stockfish_stdin_write s p (str ++ [0])
    let rest := io_run s r.2 evs
    (r.1 :: rest.1, rest.2.1, rest.2.2)
  | p, .engineRead nbytes deliver :: evs =>
    let r := engine_step p (.readStdin nbytes deliver)
    let rest := io_run s r.1 evs
    (rest.1, r.2 ++ rest.2.1, rest.2.2)

/-- The command strings of a series of events, in call order. -/
def sent : List IoEvent → List (List Nat)
  | [] => []
  | .send str :: evs => str :: sent evs
  | .engineRead _ _ :: evs => sent evs

/-- The globals of the bridge files loaded in one process: every file has its one
`pipes` and its one `buffer`, shared by all uses of that file. -/
def Globals : Type := Variant → Bridge

/-- The globals of every file as the program starts. -/
def Globals.initial : Globals := fun _ => Bridge.initial

/-- The globals of file `v` replaced. -/
def Globals.put (g : Globals) (v : Variant) (s : Bridge) : Globals :=
  fun u => if u = v then s else g u

/-- One instance of file `v` initialised and started in a process: stockfish_init on
the globals of that file, then the redirection step of stockfish_main (its engine
now runs on its own thread). -/
def init_and_start (v : Variant) (g : Globals) (p : Proc) : Globals × Proc :=
  let i := stockfish_init (g v) p
  (g.put v i.2.1, redirect v i.2.1 i.2.2)

/-- Two instances, of files `va` and `vb`, initialised and started one after the
other in the same process: the globals of the files and the process afterwards.
When `va = vb` the second stockfish_init overwrites the `pipes` of the first. -/
def two_started (va vb : Variant) (p : Proc) : Globals × Proc :=
  let a := init_and_start va Globals.initial p
  init_and_start vb a.1 a.2

/-- A process whose descriptors 0, 1 and 2 are open and whose limit is 3: no
descriptor is left for a pipe. -/
def proc_full : Proc :=
  { fdLimit := 3
    fds := fun i => if i < 3 then some (.other i) else none
    pipeData := fun _ => []
    nextPipe := 0 }

/-- A process whose descriptors 0, 1 and 2 are open and whose limit is 5: two
descriptors are left, enough for one pipe only. -/
def proc_five : Proc :=
  { fdLimit := 5
    fds := fun i => if i < 3 then some (.other i) else none
    pipeData := fun _ => []
    nextPipe := 0 }

/-- What a successful pipe(2) did. -/
structure PipeMade (p : Proc) (r w : Nat) (p1 : Proc) : Prop where
  lt : r < w
  limit : w < p.fdLimit
  free_r : p.fds r = none
  free_w : p.fds w = none
  below : ∀ j, j < w → j ≠ r → p.fds j ≠ none
  fds_eq : p1.fds = setAt (setAt p.fds r (some (.pipeRead p.nextPipe))) w
    (some (.pipeWrite p.nextPipe))
  data_eq : p1.pipeData = setAt p.pipeData p.nextPipe []
  next_eq : p1.nextPipe = p.nextPipe + 1
  limit_eq : p1.fdLimit = p.fdLimit

/-- What a successful stockfish_init did: the two pipes, their four descriptors
`r1 < w1 < r2 < w2`, and the globals. -/
structure InitDone (s : Bridge) (p : Proc) (s2 : Bridge) (p2 : Proc)
    (r1 w1 r2 w2 : Nat) : Prop where
  parent_read : PARENT_READ_FD s2 = r1
  child_write : CHILD_WRITE_FD s2 = w1
  child_read : CHILD_READ_FD s2 = r2
  parent_write : PARENT_WRITE_FD s2 = w2
  buffer_eq : s2.buffer = s.buffer
  lt1 : r1 < w1
  lt2 : w1 < r2
  lt3 : r2 < w2
  limit : w2 < p.fdLimit
  free : p.fds r1 = none ∧ p.fds w1 = none ∧ p.fds r2 = none ∧ p.fds w2 = none
  below : ∀ j, j < w2 → j ≠ r1 → j ≠ w1 → j ≠ r2 → p.fds j ≠ none
  fds_eq : ∀ j, p2.fds j =
    if j = w2 then some (.pipeWrite (p.nextPipe + 1))
    else if j = r2 then some (.pipeRead (p.nextPipe + 1))
    else if j = w1 then some (.pipeWrite p.nextPipe)
    else if j = r1 then some (.pipeRead p.nextPipe)
    else p.fds j
  data_eq : ∀ q, p2.pipeData q =
    if q = p.nextPipe + 1 then [] else if q = p.nextPipe then [] else p.pipeData q
  next_eq : p2.nextPipe = p.nextPipe + 2
  limit_eq : p2.fdLimit = p.fdLimit

/-- A process whose descriptors 0, 1 and 2 are open on other files, with no pipe. -/
def proc0 : Proc :=
  { fdLimit := 64
    fds := fun i => if i < 3 then some (.other i) else none
    pipeData := fun _ => []
    nextPipe := 0 }

/-! ## C strings: lemmas -/

theorem strcmp_eq_zero_iff (a b : List Nat) : strcmp a b = 0 ↔ cstr a = cstr b := by
  induction a generalizing b with
  | nil =>
    cases b with
    | nil => simp [strcmp, cstr]
    | cons b bs =>
      by_cases hb : b = 0
      · simp [strcmp, cstr, hb]
      · simp [strcmp, cstr, hb]
  | cons a as ih =>
    cases b with
    | nil =>
      by_cases ha : a = 0
      · simp [strcmp, cstr, ha]
      · simp [strcmp, cstr, ha]
    | cons b bs =>
      by_cases hab : a = b
      · subst hab
        by_cases ha : a = 0
        · simp [strcmp, cstr, ha]
        · simp [strcmp, cstr, ha, ih]
      · have hne : (a : Int) - (b : Int) ≠ 0 := by omega
        by_cases ha : a = 0
        · have hb : b ≠ 0 := fun h => hab (by omega)
          simp [strcmp, cstr, hab, ha, hb]
          omega
        · by_cases hb : b = 0
          · simp [strcmp, cstr, hab, ha, hb]
          · simp [strcmp, cstr, hab, ha, hb, hne]

theorem cstr_QUITOK_mem : cstr QUITOK_mem = QUITOK := by decide

theorem cstr_of_nul_free (l : List Nat) (h : 0 ∉ l) : cstr l = l := by
  induction l with
  | nil => rfl
  | cons c cs ih =>
    have hc : c ≠ 0 := fun e => h (by simp [e])
    have hcs : 0 ∉ cs := fun e => h (by simp [e])
    simp [cstr, hc, ih hcs]

/-- The C string of an array is an initial segment of the array. -/
theorem cstr_initial (l : List Nat) : ∃ post, l = cstr l ++ post := by
  induction l with
  | nil => exact ⟨[], rfl⟩
  | cons c cs ih =>
    by_cases hc : c = 0
    · exact ⟨c :: cs, by simp [cstr, hc]⟩
    · obtain ⟨post, hpost⟩ := ih
      refine ⟨post, ?_⟩
      simp only [cstr, hc, if_false, List.cons_append]
      exact congrArg (List.cons c) hpost

/-- Storing `data` at the start of an array and a NUL right after it leaves the C
string of `data`. -/
theorem cstr_store (data rest : List Nat) (h : rest ≠ []) :
    cstr ((data ++ rest).set data.length 0) = cstr data := by
  induction data with
  | nil =>
    cases rest with
    | nil => exact absurd rfl h
    | cons r rs => simp [cstr]
  | cons c cs ih =>
    by_cases hc : c = 0
    · simp [cstr, hc]
    · simp only [List.cons_append, List.length_cons, List.set_cons_succ, cstr, hc, if_false]
      exact congrArg (List.cons c) ih

theorem take_store (data rest : List Nat) :
    ((data ++ rest).set data.length 0).take data.length = data := by
  induction data with
  | nil => simp
  | cons c cs ih => simp [ih]

theorem getElem?_store (data rest : List Nat) (h : rest ≠ []) :
    ((data ++ rest).set data.length 0)[data.length]? = some 0 := by
  have hpos : 0 < rest.length := List.length_pos.mpr h
  rw [List.getElem?_set]
  simp only [if_true, List.length_append]
  rw [if_pos (by omega)]

theorem stored_length (buffer data : List Nat) (hb : buffer.length = 80)
    (hn : data.length ≤ 79) : (stored buffer data).length = 80 := by
  simp [stored, ReadOutcome.store]
  omega

theorem stored_cstr (buffer data : List Nat) (hb : buffer.length = 80)
    (hn : data.length ≤ 79) : cstr (stored buffer data) = cstr data := by
  unfold stored ReadOutcome.store
  apply cstr_store
  intro h
  have := congrArg List.length h
  simp at this
  omega

/-- The result of stockfish_stdout_read after a read that delivered `data`. -/
theorem stdout_read_bytes (buffer data : List Nat) :
    stockfish_stdout_read buffer (.bytes data) =
      if cstr (stored buffer data) = QUITOK then (none, stored buffer data)
      else (some (stored buffer data), stored buffer data) := by
  have hc : ¬ ((data.length : Int) < 0) := by omega
  simp only [stockfish_stdout_read, ReadOutcome.count, hc, if_false, strcmp_eq_zero_iff,
    cstr_QUITOK_mem, Int.toNat_ofNat, stored]

/-! ## One call of `stockfish_stdout_read` -/

/-- C1, as stated, fails: a read that delivers the eight bytes "quitok\n" followed by
a NUL byte is not a read of exactly the sentinel, and stockfish_stdout_read still
returns NULL, because strcmp stops at the NUL. -/
theorem stdout_read_null_without_exact_sentinel :
    (QUITOK ++ [0]).length ≤ 79 ∧ QUITOK ++ [0] ≠ QUITOK ∧
      (stockfish_stdout_read buffer0 (.bytes (QUITOK ++ [0]))).1 = none := by
  decide

/-- C1, amended: after a read that delivers `data` (at most 79 bytes) into the
80-byte buffer, stockfish_stdout_read returns NULL exactly when the bytes read, cut
at their first NUL byte, are the seven bytes of the sentinel; for a read without a
NUL byte that is exactly when the bytes read are the sentinel.  In every other case
it returns the buffer, which holds the bytes read followed by a NUL byte. -/
theorem stdout_read_null_iff_cstr_sentinel (buffer data : List Nat)
    (hb : buffer.length = 80) (hn : data.length ≤ 79) :
    ((stockfish_stdout_read buffer (.bytes data)).1 = none ↔ cstr data = QUITOK) ∧
    (0 ∉ data → ((stockfish_stdout_read buffer (.bytes data)).1 = none ↔ data = QUITOK)) ∧
    (cstr data ≠ QUITOK →
      ∃ b, (stockfish_stdout_read buffer (.bytes data)).1 = some b ∧
        (stockfish_stdout_read buffer (.bytes data)).2 = b ∧
        b.length = 80 ∧ b.take data.length = data ∧ b[data.length]? = some 0) := by
  have hc := stored_cstr buffer data hb hn
  have hne : buffer.drop data.length ≠ [] := by
    intro h
    have := congrArg List.length h
    simp at this
    omega
  rw [stdout_read_bytes, hc]
  refine ⟨?_, ?_, ?_⟩
  · by_cases h : cstr data = QUITOK
    · simp [h]
    · simp [h]
  · intro h0
    rw [cstr_of_nul_free data h0]
    by_cases h : data = QUITOK
    · simp [h]
    · simp [h]
  · intro h
    refine ⟨stored buffer data, by simp [h], by simp [h],
      stored_length buffer data hb hn, ?_, ?_⟩
    · exact take_store data _
    · exact getElem?_store data _ hne

theorem stdout_read_null_iff_cstr_sentinel_witness :
    ((stockfish_stdout_read buffer0 (.bytes [117, 99, 105, 111, 107, 10])).1 = none ↔
        cstr [117, 99, 105, 111, 107, 10] = QUITOK) ∧
    (0 ∉ [117, 99, 105, 111, 107, 10] →
      ((stockfish_stdout_read buffer0 (.bytes [117, 99, 105, 111, 107, 10])).1 = none ↔
        [117, 99, 105, 111, 107, 10] = QUITOK)) ∧
    (cstr [117, 99, 105, 111, 107, 10] ≠ QUITOK →
      ∃ b, (stockfish_stdout_read buffer0 (.bytes [117, 99, 105, 111, 107, 10])).1 = some b ∧
        (stockfish_stdout_read buffer0 (.bytes [117, 99, 105, 111, 107, 10])).2 = b ∧
        b.length = 80 ∧ b.take [117, 99, 105, 111, 107, 10].length = [117, 99, 105, 111, 107, 10] ∧
        b[[117, 99, 105, 111, 107, 10].length]? = some 0) :=
  stdout_read_null_iff_cstr_sentinel buffer0 [117, 99, 105, 111, 107, 10]
    (by decide) (by decide)

/-- C8, as stated, fails: a read that returns -1 and a read of the sentinel give
the same result, NULL. -/
theorem stdout_read_failure_same_as_sentinel :
    (ReadOutcome.failure 0).count < 0 ∧
      (stockfish_stdout_read buffer0 (.failure 0)).1 =
        (stockfish_stdout_read buffer0 (.bytes QUITOK)).1 := by
  decide

/-- C8, amended: whenever the underlying read returns a negative count,
stockfish_stdout_read returns NULL and leaves the buffer as it was; this is the very
result it returns when the sentinel is read, so the return value does not tell a
read failure from the termination of the engine. -/
theorem stdout_read_failure_returns_null (buffer : List Nat) (r : ReadOutcome)
    (hneg : r.count < 0) (hb : buffer.length = 80) :
    (stockfish_stdout_read buffer r).1 = none ∧
    (stockfish_stdout_read buffer r).2 = buffer ∧
    (stockfish_stdout_read buffer r).1 = (stockfish_stdout_read buffer (.bytes QUITOK)).1 := by
  have hq : (stockfish_stdout_read buffer (.bytes QUITOK)).1 = none := by
    rw [stdout_read_bytes, stored_cstr buffer QUITOK hb (by decide)]
    simp [cstr_of_nul_free QUITOK (by decide)]
  cases r with
  | bytes data =>
    simp only [ReadOutcome.count] at hneg
    omega
  | failure ret =>
    rw [hq]
    simp [stockfish_stdout_read, hneg, ReadOutcome.store]

theorem stdout_read_failure_returns_null_witness :
    (stockfish_stdout_read buffer0 (.failure 3)).1 = none ∧
    (stockfish_stdout_read buffer0 (.failure 3)).2 = buffer0 ∧
    (stockfish_stdout_read buffer0 (.failure 3)).1 =
      (stockfish_stdout_read buffer0 (.bytes QUITOK)).1 :=
  stdout_read_failure_returns_null buffer0 (.failure 3) (by decide) (by decide)

/-! ## Series of calls of `stockfish_stdout_read` -/

theorem SentinelFree.head {c rest : List Nat} (h : SentinelFree (c ++ rest)) :
    SentinelFree c := by
  intro pre post e
  exact h pre (post ++ rest) (by simp [e])

theorem SentinelFree.tail {c rest : List Nat} (h : SentinelFree (c ++ rest)) :
    SentinelFree rest := by
  intro pre post e
  exact h (c ++ pre) post (by simp [e])

theorem sentinelFree_of_short (l : List Nat) (h : l.length < 7) : SentinelFree l := by
  intro pre post e
  have := congrArg List.length e
  simp [QUITOK] at this
  omega

/-- A read of a chunk without the sentinel never gives NULL. -/
theorem stdout_read_chunk (buffer c : List Nat) (hb : buffer.length = 80)
    (hn : c.length ≤ 79) (hfree : SentinelFree c) :
    stockfish_stdout_read buffer (.bytes c) = (some (stored buffer c), stored buffer c) := by
  rw [stdout_read_bytes, stored_cstr buffer c hb hn]
  have hne : cstr c ≠ QUITOK := by
    intro e
    obtain ⟨post, hpost⟩ := cstr_initial c
    rw [e] at hpost
    exact hfree [] post (by simpa using hpost)
  simp [hne]

/-- A read of the sentinel alone gives NULL. -/
theorem stdout_read_sentinel (buffer : List Nat) (hb : buffer.length = 80) :
    stockfish_stdout_read buffer (.bytes QUITOK) = (none, stored buffer QUITOK) := by
  rw [stdout_read_bytes, stored_cstr buffer QUITOK hb (by decide)]
  simp [cstr_of_nul_free QUITOK (by decide)]

/-- The results of the reads of sentinel-free chunks followed by a read of the
sentinel alone. -/
theorem stdout_reads_chunks (chunks : List (List Nat)) :
    ∀ buffer : List Nat, buffer.length = 80 → SentinelFree chunks.flatten →
      (∀ c ∈ chunks, 1 ≤ c.length ∧ c.length ≤ 79) →
      stdout_reads buffer ((chunks ++ [QUITOK]).map .bytes) =
        (buffers_after buffer chunks).map some ++ [none] := by
  induction chunks with
  | nil =>
    intro buffer hb _ _
    simp [stdout_reads, buffers_after, stdout_read_sentinel buffer hb]
  | cons c cs ih =>
    intro buffer hb hfree hsz
    have hc := hsz c (by simp)
    rw [List.flatten_cons] at hfree
    have hrd := stdout_read_chunk buffer c hb hc.2 hfree.head
    have hnext := ih (stored buffer c) (stored_length buffer c hb hc.2) hfree.tail
      (fun d hd => hsz d (by simp [hd]))
    simp only [List.cons_append, List.map_cons, stdout_reads, hrd, buffers_after]
    exact congrArg (List.cons (some (stored buffer c))) hnext

theorem buffers_after_length (chunks : List (List Nat)) :
    ∀ buffer : List Nat, (buffers_after buffer chunks).length = chunks.length := by
  induction chunks with
  | nil => intro _; rfl
  | cons c cs ih => intro buffer; simp [buffers_after, ih]

theorem buffers_after_cstr (chunks : List (List Nat)) :
    ∀ buffer : List Nat, buffer.length = 80 → (∀ c ∈ chunks, 1 ≤ c.length ∧ c.length ≤ 79) →
      0 ∉ chunks.flatten →
      ((buffers_after buffer chunks).map cstr).flatten = chunks.flatten := by
  induction chunks with
  | nil => intro _ _ _ _; rfl
  | cons c cs ih =>
    intro buffer hb hsz h0
    have hc := hsz c (by simp)
    have h0c : 0 ∉ c := fun e => h0 (by simp [e])
    have h0cs : 0 ∉ cs.flatten := fun e => h0 (by
      rw [List.flatten_cons, List.mem_append]
      exact Or.inr e)
    simp only [buffers_after, List.map_cons, List.flatten_cons]
    rw [stored_cstr buffer c hb hc.2, cstr_of_nul_free c h0c,
      ih (stored buffer c) (stored_length buffer c hb hc.2) (fun d hd => hsz d (by simp [hd])) h0cs]

theorem fragments_before_null_some (bs : List (List Nat)) (rest : List (Option (List Nat))) :
    fragments_before_null (bs.map some ++ none :: rest) = (bs.map cstr).flatten := by
  induction bs with
  | nil => rfl
  | cons b bs ih => simp [fragments_before_null, ih]

theorem count_none_map_some (bs : List (List Nat)) :
    ((bs.map some ++ [none] : List (Option (List Nat)))).count none = 1 := by
  induction bs with
  | nil => rfl
  | cons b bs ih => simpa [List.count_cons] using ih

/-- C2, as stated, fails: the engine output "a" followed by the sentinel, delivered
by one read of eight bytes, gives one result, which is not NULL: no read returns
NULL. -/
theorem reads_without_null_when_sentinel_coalesced :
    SentinelFree [97] ∧
    [[97] ++ QUITOK].flatten = [97] ++ QUITOK ∧
    (∀ c ∈ [[97] ++ QUITOK], 1 ≤ c.length ∧ c.length ≤ 79) ∧
    (stdout_reads buffer0 ([[97] ++ QUITOK].map .bytes)).count none = 0 :=
  ⟨sentinelFree_of_short [97] (by decide), by decide, by decide, by decide⟩

/-- C2, amended: for every engine output that does not contain the sentinel, and
for every way its bytes are delivered by successive reads of 1 to 79 bytes each,
followed by the sentinel delivered as a read of its own, the results of
stockfish_stdout_read contain exactly one NULL, it is the result of the last read,
and all results before it are buffers. -/
theorem reads_end_with_single_null (buffer out : List Nat) (chunks : List (List Nat))
    (hb : buffer.length = 80) (hfree : SentinelFree out) (hsplit : chunks.flatten = out)
    (hsz : ∀ c ∈ chunks, 1 ≤ c.length ∧ c.length ≤ 79) :
    (stdout_reads buffer ((chunks ++ [QUITOK]).map .bytes)).count none = 1 ∧
    (stdout_reads buffer ((chunks ++ [QUITOK]).map .bytes)).getLast? = some none ∧
    ∃ bs : List (List Nat), bs.length = chunks.length ∧
      stdout_reads buffer ((chunks ++ [QUITOK]).map .bytes) = bs.map some ++ [none] := by
  subst hsplit
  rw [stdout_reads_chunks chunks buffer hb hfree hsz]
  refine ⟨count_none_map_some _, by simp, buffers_after buffer chunks,
    buffers_after_length chunks buffer, rfl⟩

theorem reads_end_with_single_null_witness :
    (stdout_reads buffer0 (([[117, 99], [105, 111, 107, 10]] ++ [QUITOK]).map .bytes)).count
        none = 1 ∧
    (stdout_reads buffer0 (([[117, 99], [105, 111, 107, 10]] ++ [QUITOK]).map .bytes)).getLast? =
        some none ∧
    ∃ bs : List (List Nat), bs.length = [[117, 99], [105, 111, 107, 10]].length ∧
      stdout_reads buffer0 (([[117, 99], [105, 111, 107, 10]] ++ [QUITOK]).map .bytes) =
        bs.map some ++ [none] :=
  reads_end_with_single_null buffer0 [117, 99, 105, 111, 107, 10]
    [[117, 99], [105, 111, 107, 10]] (by decide)
    (sentinelFree_of_short _ (by decide)) (by decide) (by decide)

/-- C3: for every NUL-free engine output that does not contain the sentinel, and for
every split of it into reads of 1 to 79 bytes followed by the sentinel delivered as a
read of its own, the fragments returned by stockfish_stdout_read before it returns
NULL, concatenated, are the output of the engine byte for byte. -/
theorem fragments_equal_output (buffer out : List Nat) (chunks : List (List Nat))
    (hb : buffer.length = 80) (hnul : 0 ∉ out) (hfree : SentinelFree out)
    (hsplit : chunks.flatten = out) (hsz : ∀ c ∈ chunks, 1 ≤ c.length ∧ c.length ≤ 79) :
    fragments_before_null (stdout_reads buffer ((chunks ++ [QUITOK]).map .bytes)) = out := by
  subst hsplit
  rw [stdout_reads_chunks chunks buffer hb hfree hsz, fragments_before_null_some,
    buffers_after_cstr chunks buffer hb hsz hnul]

theorem fragments_equal_output_witness :
    fragments_before_null
        (stdout_reads buffer0 (([[117, 99], [105, 111, 107, 10]] ++ [QUITOK]).map .bytes)) =
      [117, 99, 105, 111, 107, 10] :=
  fragments_equal_output buffer0 [117, 99, 105, 111, 107, 10]
    [[117, 99], [105, 111, 107, 10]] (by decide) (by decide)
    (sentinelFree_of_short _ (by decide)) (by decide) (by decide)

/-! ## The descriptor table: lemmas -/

theorem lowestFreeFrom_spec (fds : Nat → Option FileRef) (n : Nat) :
    ∀ i r : Nat, lowestFreeFrom fds n i = some r →
      i ≤ r ∧ r < i + n ∧ fds r = none ∧ ∀ j, i ≤ j → j < r → fds j ≠ none := by
  induction n with
  | zero => intro i r h; simp [lowestFreeFrom] at h
  | succ n ih =>
    intro i r h
    unfold lowestFreeFrom at h
    by_cases hi : (fds i).isNone = true
    · rw [if_pos hi] at h
      have hr : i = r := by simpa using h
      subst hr
      refine ⟨le_refl _, by omega, by simpa using hi, ?_⟩
      intro j h1 h2
      omega
    · rw [if_neg hi] at h
      obtain ⟨h1, h2, h3, h4⟩ := ih (i + 1) r h
      refine ⟨by omega, by omega, h3, ?_⟩
      intro j hj1 hj2
      by_cases hji : j = i
      · subst hji
        intro e
        exact hi (by simp [e])
      · exact h4 j (by omega) hj2

theorem lowestFree_spec (limit : Nat) (fds : Nat → Option FileRef) (r : Nat)
    (h : lowestFree limit fds = some r) :
    r < limit ∧ fds r = none ∧ ∀ j, j < r → fds j ≠ none := by
  obtain ⟨_, h2, h3, h4⟩ := lowestFreeFrom_spec fds limit 0 r h
  exact ⟨by omega, h3, fun j hj => h4 j (Nat.zero_le _) hj⟩

theorem sysPipe_some (p : Proc) (h : (sysPipe p).1.isSome = true) :
    ∃ r w, sysPipe p = (some (r, w), (sysPipe p).2) ∧ PipeMade p r w (sysPipe p).2 := by
  cases h1 : lowestFree p.fdLimit p.fds with
  | none => simp [sysPipe, h1] at h
  | some r =>
    cases h2 : lowestFree p.fdLimit (setAt p.fds r (some (.pipeRead p.nextPipe))) with
    | none => simp [sysPipe, h1, h2] at h
    | some w =>
      have e : sysPipe p = (some (r, w),
          { p with
            fds := setAt (setAt p.fds r (some (.pipeRead p.nextPipe))) w
                    (some (.pipeWrite p.nextPipe))
            pipeData := setAt p.pipeData p.nextPipe []
            nextPipe := p.nextPipe + 1 }) := by
        simp only [sysPipe, h1, h2]
      obtain ⟨_, a2, a3⟩ := lowestFree_spec _ _ _ h1
      obtain ⟨b1, b2, b3⟩ := lowestFree_spec _ _ _ h2
      have hwr : w ≠ r := by
        intro e
        simp [setAt, e] at b2
      have hfw : p.fds w = none := by simpa [setAt, hwr] using b2
      have hlt : r < w := by
        rcases Nat.lt_or_ge r w with hlt | hge
        · exact hlt
        · exact absurd hfw (a3 w (by omega))
      refine ⟨r, w, by rw [e], ?_⟩
      rw [e]
      refine ⟨hlt, b1, a2, hfw, ?_, rfl, rfl, rfl, rfl⟩
      intro j hj hjr
      have := b3 j hj
      simpa [setAt, hjr] using this

theorem setAt_same {α : Type} (f : Nat → α) (i : Nat) (v : α) : setAt f i v i = v := by
  simp [setAt]

theorem setAt_other {α : Type} (f : Nat → α) (i j : Nat) (v : α) (h : j ≠ i) :
    setAt f i v j = f j := by
  simp [setAt, h]

theorem stockfish_init_done (s : Bridge) (p : Proc) (h : initCreatesBoth p = true) :
    ∃ r1 w1 r2 w2,
      InitDone s p (stockfish_init s p).2.1 (stockfish_init s p).2.2 r1 w1 r2 w2 := by
  simp only [initCreatesBoth, Bool.and_eq_true] at h
  obtain ⟨r1, w1, e1, m1⟩ := sysPipe_some p h.1
  obtain ⟨r2, w2, e2, m2⟩ := sysPipe_some (sysPipe p).2 h.2
  have hp1 : pipe p (s.pipes PARENT_READ_PIPE) =
      (0, setAt (setAt (s.pipes PARENT_READ_PIPE) 0 r1) 1 w1, (sysPipe p).2) := by
    unfold pipe
    rw [e1]
  have hp2 : ∀ arr, pipe (sysPipe p).2 arr =
      (0, setAt (setAt arr 0 r2) 1 w2, (sysPipe (sysPipe p).2).2) := by
    intro arr
    unfold pipe
    rw [e2]
  have hw1r2 : w1 < r2 := by
    rcases Nat.lt_or_ge w1 r2 with hlt | hge
    · exact hlt
    · exfalso
      have hfree := m2.free_r
      rw [m1.fds_eq] at hfree
      by_cases e : r2 = w1
      · simp [setAt, e] at hfree
      · by_cases e' : r2 = r1
        · have hne : r1 ≠ w1 := Nat.ne_of_lt m1.lt
          simp [setAt, e', hne] at hfree
        · have := m1.below r2 (by omega) e'
          simp [setAt, e, e'] at hfree
          exact this hfree
  have hr1 : r1 ≠ r2 := by have := m1.lt; omega
  have hr1w2 : r1 ≠ w2 := by have := m1.lt; have := m2.lt; omega
  have hw1w2 : w1 ≠ w2 := by have := m2.lt; omega
  have hr2w1 : r2 ≠ w1 := by omega
  have hfr2 : p.fds r2 = none := by
    have := m2.free_r
    rw [m1.fds_eq] at this
    simpa [setAt, hr2w1, hr1.symm] using this
  have hfw2 : p.fds w2 = none := by
    have := m2.free_w
    rw [m1.fds_eq] at this
    simpa [setAt, hw1w2.symm, hr1w2.symm] using this
  refine ⟨r1, w1, r2, w2, ?_⟩
  simp only [stockfish_init, hp1, hp2]
  refine
    { parent_read := by simp [PARENT_READ_FD, setAt, PARENT_READ_PIPE, PARENT_WRITE_PIPE, READ_FD]
      child_write := by simp [CHILD_WRITE_FD, setAt, PARENT_READ_PIPE, PARENT_WRITE_PIPE, WRITE_FD]
      child_read := by simp [CHILD_READ_FD, setAt, PARENT_WRITE_PIPE, READ_FD]
      parent_write := by simp [PARENT_WRITE_FD, setAt, PARENT_WRITE_PIPE, WRITE_FD]
      buffer_eq := rfl
      lt1 := m1.lt
      lt2 := hw1r2
      lt3 := m2.lt
      limit := by have := m2.limit; rw [m1.limit_eq] at this; exact this
      free := ⟨m1.free_r, m1.free_w, hfr2, hfw2⟩
      below := ?_
      fds_eq := ?_
      data_eq := ?_
      next_eq := by rw [m2.next_eq, m1.next_eq]
      limit_eq := by rw [m2.limit_eq, m1.limit_eq] }
  · intro j hj h1 h2 h3
    have := m2.below j hj h3
    rw [m1.fds_eq] at this
    simpa [setAt, h1, h2] using this
  · intro j
    rw [m2.fds_eq, m1.fds_eq, m1.next_eq]
    simp only [setAt]
  · intro q
    rw [m2.data_eq, m1.data_eq, m1.next_eq]
    simp only [setAt]

/-! ## dup2, close and the redirection step -/

theorem dup2_fds (p : Proc) (o n : Nat) (f : FileRef) (ho : p.fds o = some f)
    (hn : n < p.fdLimit) : (dup2 p o n).2.fds = setAt p.fds n (some f) := by
  unfold dup2
  rw [ho]
  by_cases e : o = n
  · subst e
    simp only [if_pos]
    funext j
    by_cases hj : j = o
    · simp [setAt, hj, ho]
    · simp [setAt, hj]
  · have hl : ¬ p.fdLimit ≤ n := by omega
    simp [e, hl]

theorem dup2_rest (p : Proc) (o n : Nat) :
    (dup2 p o n).2.pipeData = p.pipeData ∧ (dup2 p o n).2.nextPipe = p.nextPipe ∧
    (dup2 p o n).2.fdLimit = p.fdLimit := by
  unfold dup2
  cases p.fds o with
  | none => simp
  | some f =>
    by_cases e : o = n
    · simp [e]
    · by_cases hl : p.fdLimit ≤ n
      · simp [e, hl]
      · simp [e, hl]

theorem close_fds (p : Proc) (fd : Nat) : (close p fd).2.fds = setAt p.fds fd none := by
  unfold close
  cases h : p.fds fd with
  | none =>
    funext j
    by_cases hj : j = fd
    · simp [setAt, hj, h]
    · simp [setAt, hj]
  | some f => rfl

theorem close_rest (p : Proc) (fd : Nat) :
    (close p fd).2.pipeData = p.pipeData ∧ (close p fd).2.nextPipe = p.nextPipe ∧
    (close p fd).2.fdLimit = p.fdLimit := by
  unfold close
  cases p.fds fd with
  | none => simp
  | some f => simp

/-- The descriptor table after the two dup2 calls of stockfish_main. -/
theorem redirect_keeping_fds {s : Bridge} {p : Proc} {s2 : Bridge} {p2 : Proc}
    {r1 w1 r2 w2 : Nat} (h : InitDone s p s2 p2 r1 w1 r2 w2) (j : Nat) :
    (redirect_keeping s2 p2).fds j =
      if j = 1 then some (.pipeWrite p.nextPipe)
      else if j = 0 then some (.pipeRead (p.nextPipe + 1))
      else p2.fds j := by
  have h1 := h.lt1
  have h2 := h.lt2
  have h3 := h.lt3
  have h4 := h.limit
  have hl := h.limit_eq
  have e1 : p2.fds r2 = some (.pipeRead (p.nextPipe + 1)) := by
    rw [h.fds_eq]
    simp [show r2 ≠ w2 by omega]
  have d1 := dup2_fds p2 r2 0 _ e1 (by omega)
  have e2 : (dup2 p2 r2 0).2.fds w1 = some (.pipeWrite p.nextPipe) := by
    rw [d1, setAt_other _ _ _ _ (by omega), h.fds_eq]
    simp [show w1 ≠ w2 by omega, show w1 ≠ r2 by omega]
  have d2 := dup2_fds (dup2 p2 r2 0).2 w1 1 _ e2 (by rw [(dup2_rest p2 r2 0).2.2]; omega)
  simp only [redirect_keeping, h.child_read, h.child_write, STDIN_FILENO, STDOUT_FILENO]
  rw [d2, d1]
  simp only [setAt]

theorem redirect_keeping_rest (s2 : Bridge) (p2 : Proc) :
    (redirect_keeping s2 p2).pipeData = p2.pipeData ∧
    (redirect_keeping s2 p2).nextPipe = p2.nextPipe ∧
    (redirect_keeping s2 p2).fdLimit = p2.fdLimit := by
  simp only [redirect_keeping]
  refine ⟨?_, ?_, ?_⟩
  · rw [(dup2_rest _ _ _).1, (dup2_rest _ _ _).1]
  · rw [(dup2_rest _ _ _).2.1, (dup2_rest _ _ _).2.1]
  · rw [(dup2_rest _ _ _).2.2, (dup2_rest _ _ _).2.2]

theorem redirect_closing_eq (s2 : Bridge) (p2 : Proc) :
    redirect_closing s2 p2 =
      (close (close (redirect_keeping s2 p2) (CHILD_READ_FD s2)).2 (CHILD_WRITE_FD s2)).2 :=
  rfl

/-- The descriptor table after the two dup2 calls and the two close calls. -/
theorem redirect_closing_fds {s : Bridge} {p : Proc} {s2 : Bridge} {p2 : Proc}
    {r1 w1 r2 w2 : Nat} (h : InitDone s p s2 p2 r1 w1 r2 w2) (j : Nat) :
    (redirect_closing s2 p2).fds j =
      if j = w1 then none
      else if j = r2 then none
      else if j = 1 then some (.pipeWrite p.nextPipe)
      else if j = 0 then some (.pipeRead (p.nextPipe + 1))
      else p2.fds j := by
  rw [redirect_closing_eq, close_fds, close_fds, h.child_read, h.child_write]
  simp only [setAt, redirect_keeping_fds h]

theorem redirect_closing_rest (s2 : Bridge) (p2 : Proc) :
    (redirect_closing s2 p2).pipeData = p2.pipeData ∧
    (redirect_closing s2 p2).nextPipe = p2.nextPipe ∧
    (redirect_closing s2 p2).fdLimit = p2.fdLimit := by
  rw [redirect_closing_eq]
  have k := redirect_keeping_rest s2 p2
  refine ⟨?_, ?_, ?_⟩
  · rw [(close_rest _ _).1, (close_rest _ _).1, k.1]
  · rw [(close_rest _ _).2.1, (close_rest _ _).2.1, k.2.1]
  · rw [(close_rest _ _).2.2, (close_rest _ _).2.2, k.2.2]

theorem redirect_rest (v : Variant) (s2 : Bridge) (p2 : Proc) :
    (redirect v s2 p2).pipeData = p2.pipeData ∧
    (redirect v s2 p2).nextPipe = p2.nextPipe ∧
    (redirect v s2 p2).fdLimit = p2.fdLimit := by
  cases v
  · exact redirect_keeping_rest s2 p2
  · exact redirect_closing_rest s2 p2
  · exact redirect_keeping_rest s2 p2
  · exact redirect_closing_rest s2 p2

/-! ## After `stockfish_init` and the redirection of `stockfish_main` -/

theorem InitDone.two_le {s : Bridge} {p : Proc} {s2 : Bridge} {p2 : Proc}
    {r1 w1 r2 w2 : Nat} (h : InitDone s p s2 p2 r1 w1 r2 w2)
    (h0 : p.fds 0 ≠ none) (h1 : p.fds 1 ≠ none) : 2 ≤ r1 := by
  have hf := h.free.1
  rcases Nat.lt_or_ge r1 2 with hlt | hge
  · exfalso
    have : r1 = 0 ∨ r1 = 1 := by omega
    rcases this with e | e
    · rw [e] at hf
      exact h0 hf
    · rw [e] at hf
      exact h1 hf
  · exact hge

theorem redirect_fds (v : Variant) (s2 : Bridge) (p2 : Proc) (j : Nat) :
    (redirect v s2 p2).fds j = (redirect_keeping s2 p2).fds j ∨
    (redirect v s2 p2).fds j = (redirect_closing s2 p2).fds j := by
  cases v
  · exact Or.inl rfl
  · exact Or.inr rfl
  · exact Or.inl rfl
  · exact Or.inr rfl

/-- The descriptor table after stockfish_init and the redirection step, when
descriptors 0 and 1 were open before stockfish_init. -/
theorem redirect_fds_of_open (v : Variant) {s : Bridge} {p : Proc} {s2 : Bridge} {p2 : Proc}
    {r1 w1 r2 w2 : Nat} (h : InitDone s p s2 p2 r1 w1 r2 w2)
    (h0 : p.fds 0 ≠ none) (h1 : p.fds 1 ≠ none) :
    (redirect v s2 p2).fds 0 = some (.pipeRead (p.nextPipe + 1)) ∧
    (redirect v s2 p2).fds 1 = some (.pipeWrite p.nextPipe) ∧
    (redirect v s2 p2).fds r1 = some (.pipeRead p.nextPipe) ∧
    (redirect v s2 p2).fds w2 = some (.pipeWrite (p.nextPipe + 1)) ∧
    (∀ j, 2 ≤ j → j ≠ r1 → j ≠ w1 → j ≠ r2 → j ≠ w2 →
      (redirect v s2 p2).fds j = p.fds j) := by
  have hr := h.two_le h0 h1
  have a1 := h.lt1
  have a2 := h.lt2
  have a3 := h.lt3
  have hk := redirect_keeping_fds h
  have hc := redirect_closing_fds h
  have hf := h.fds_eq
  refine ⟨?_, ?_, ?_, ?_, ?_⟩
  · rcases redirect_fds v s2 p2 0 with e | e
    · rw [e, hk]; simp
    · rw [e, hc]
      simp [show (0 : Nat) ≠ w1 by omega, show (0 : Nat) ≠ r2 by omega]
  · rcases redirect_fds v s2 p2 1 with e | e
    · rw [e, hk]; simp
    · rw [e, hc]
      simp [show (1 : Nat) ≠ w1 by omega, show (1 : Nat) ≠ r2 by omega]
  · rcases redirect_fds v s2 p2 r1 with e | e
    · rw [e, hk, hf]
      simp [show r1 ≠ 1 by omega, show r1 ≠ 0 by omega, show r1 ≠ w2 by omega,
        show r1 ≠ r2 by omega, show r1 ≠ w1 by omega]
    · rw [e, hc, hf]
      simp [show r1 ≠ 1 by omega, show r1 ≠ 0 by omega, show r1 ≠ w2 by omega,
        show r1 ≠ r2 by omega, show r1 ≠ w1 by omega]
  · rcases redirect_fds v s2 p2 w2 with e | e
    · rw [e, hk, hf]
      simp [show w2 ≠ 1 by omega, show w2 ≠ 0 by omega]
    · rw [e, hc, hf]
      simp [show w2 ≠ 1 by omega, show w2 ≠ 0 by omega,
        show w2 ≠ r2 by omega, show w2 ≠ w1 by omega]
  · intro j b1 b2 b3 b4 b5
    rcases redirect_fds v s2 p2 j with e | e
    · rw [e, hk, hf]
      simp [show j ≠ 1 by omega, show j ≠ 0 by omega, b2, b3, b4, b5]
    · rw [e, hc, hf]
      simp [show j ≠ 1 by omega, show j ≠ 0 by omega, b2, b3, b4, b5]

/-- C10: for every descriptor table in which descriptors 0 and 1 are open when
stockfish_init is called, both pipe creations succeeding, the four pipe descriptors
are pairwise distinct and differ from 0 and 1; after the dup2 and close calls of
stockfish_main the outside read end and the outside write end are still open and
refer to the pipes they were created on (for stockfish16.cpp, and for the three
other files as well). -/
theorem init_descriptors_distinct_outside_ends_kept (v : Variant) (s : Bridge) (p : Proc)
    (h0 : p.fds 0 ≠ none) (h1 : p.fds 1 ≠ none) (hc : initCreatesBoth p = true) :
    [PARENT_READ_FD (stockfish_init s p).2.1, CHILD_WRITE_FD (stockfish_init s p).2.1,
      CHILD_READ_FD (stockfish_init s p).2.1, PARENT_WRITE_FD (stockfish_init s p).2.1].Nodup ∧
    (∀ d ∈ [PARENT_READ_FD (stockfish_init s p).2.1, CHILD_WRITE_FD (stockfish_init s p).2.1,
      CHILD_READ_FD (stockfish_init s p).2.1, PARENT_WRITE_FD (stockfish_init s p).2.1],
      d ≠ 0 ∧ d ≠ 1) ∧
    (stockfish_init s p).2.2.fds (PARENT_READ_FD (stockfish_init s p).2.1) =
      some (.pipeRead p.nextPipe) ∧
    (stockfish_init s p).2.2.fds (PARENT_WRITE_FD (stockfish_init s p).2.1) =
      some (.pipeWrite (p.nextPipe + 1)) ∧
    (redirect v (stockfish_init s p).2.1 (stockfish_init s p).2.2).fds
        (PARENT_READ_FD (stockfish_init s p).2.1) = some (.pipeRead p.nextPipe) ∧
    (redirect v (stockfish_init s p).2.1 (stockfish_init s p).2.2).fds
        (PARENT_WRITE_FD (stockfish_init s p).2.1) = some (.pipeWrite (p.nextPipe + 1)) := by
  obtain ⟨r1, w1, r2, w2, h⟩ := stockfish_init_done s p hc
  have hr := h.two_le h0 h1
  have a1 := h.lt1
  have a2 := h.lt2
  have a3 := h.lt3
  obtain ⟨_, _, k3, k4, _⟩ := redirect_fds_of_open v h h0 h1
  rw [h.parent_read, h.child_write, h.child_read, h.parent_write]
  refine ⟨?_, ?_, ?_, ?_, k3, k4⟩
  · simp only [List.nodup_cons, List.mem_cons, List.mem_singleton, List.not_mem_nil,
      List.nodup_nil, or_false, not_or, and_true, not_false_eq_true]
    omega
  · intro d hd
    simp only [List.mem_cons, List.mem_singleton, List.not_mem_nil, or_false] at hd
    omega
  · rw [h.fds_eq]
    simp [show r1 ≠ w2 by omega, show r1 ≠ r2 by omega, show r1 ≠ w1 by omega]
  · rw [h.fds_eq]
    simp

theorem init_descriptors_distinct_outside_ends_kept_witness :
    [PARENT_READ_FD (stockfish_init Bridge.initial proc0).2.1,
      CHILD_WRITE_FD (stockfish_init Bridge.initial proc0).2.1,
      CHILD_READ_FD (stockfish_init Bridge.initial proc0).2.1,
      PARENT_WRITE_FD (stockfish_init Bridge.initial proc0).2.1].Nodup ∧
    (∀ d ∈ [PARENT_READ_FD (stockfish_init Bridge.initial proc0).2.1,
      CHILD_WRITE_FD (stockfish_init Bridge.initial proc0).2.1,
      CHILD_READ_FD (stockfish_init Bridge.initial proc0).2.1,
      PARENT_WRITE_FD (stockfish_init Bridge.initial proc0).2.1], d ≠ 0 ∧ d ≠ 1) ∧
    (stockfish_init Bridge.initial proc0).2.2.fds
        (PARENT_READ_FD (stockfish_init Bridge.initial proc0).2.1) =
      some (.pipeRead proc0.nextPipe) ∧
    (stockfish_init Bridge.initial proc0).2.2.fds
        (PARENT_WRITE_FD (stockfish_init Bridge.initial proc0).2.1) =
      some (.pipeWrite (proc0.nextPipe + 1)) ∧
    (redirect .sf16 (stockfish_init Bridge.initial proc0).2.1
        (stockfish_init Bridge.initial proc0).2.2).fds
        (PARENT_READ_FD (stockfish_init Bridge.initial proc0).2.1) =
      some (.pipeRead proc0.nextPipe) ∧
    (redirect .sf16 (stockfish_init Bridge.initial proc0).2.1
        (stockfish_init Bridge.initial proc0).2.2).fds
        (PARENT_WRITE_FD (stockfish_init Bridge.initial proc0).2.1) =
      some (.pipeWrite (proc0.nextPipe + 1)) :=
  init_descriptors_distinct_outside_ends_kept .sf16 Bridge.initial proc0
    (by decide) (by decide) (by decide)

/-- C6 fails in stockfish_hce.cpp (and multistockfish_fairy.cpp): in a process with
descriptors 0, 1 and 2 open, stockfish_init puts the pipes on descriptors 3, 4 and
5, 6; after the redirection step descriptors 0 and 1 refer to the inside ends, and
the original inside-end descriptors 5 and 4 are still open on the same pipe ends,
while the same step of stockfish_nnue.cpp and stockfish16.cpp closes them. -/
theorem redirect_hce_keeps_inside_ends_open :
    CHILD_READ_FD (stockfish_init Bridge.initial proc0).2.1 = 5 ∧
    CHILD_WRITE_FD (stockfish_init Bridge.initial proc0).2.1 = 4 ∧
    (redirect .hce (stockfish_init Bridge.initial proc0).2.1
      (stockfish_init Bridge.initial proc0).2.2).fds 0 = some (.pipeRead 1) ∧
    (redirect .hce (stockfish_init Bridge.initial proc0).2.1
      (stockfish_init Bridge.initial proc0).2.2).fds 1 = some (.pipeWrite 0) ∧
    (redirect .hce (stockfish_init Bridge.initial proc0).2.1
      (stockfish_init Bridge.initial proc0).2.2).fds 5 = some (.pipeRead 1) ∧
    (redirect .hce (stockfish_init Bridge.initial proc0).2.1
      (stockfish_init Bridge.initial proc0).2.2).fds 4 = some (.pipeWrite 0) ∧
    (redirect .fairy (stockfish_init Bridge.initial proc0).2.1
      (stockfish_init Bridge.initial proc0).2.2).fds 5 = some (.pipeRead 1) ∧
    (redirect .fairy (stockfish_init Bridge.initial proc0).2.1
      (stockfish_init Bridge.initial proc0).2.2).fds 4 = some (.pipeWrite 0) ∧
    (redirect .nnue (stockfish_init Bridge.initial proc0).2.1
      (stockfish_init Bridge.initial proc0).2.2).fds 5 = none ∧
    (redirect .nnue (stockfish_init Bridge.initial proc0).2.1
      (stockfish_init Bridge.initial proc0).2.2).fds 4 = none := by
  decide

/-- The redirection step in general, descriptors 0 and 1 open before stockfish_init
and both pipes created: in the four files descriptor 0 ends on the read end of the
outside-to-inside pipe and descriptor 1 on the write end of the inside-to-outside
pipe; the original inside-end descriptors are closed by stockfish_nnue.cpp and
stockfish16.cpp, and stay open in stockfish_hce.cpp and multistockfish_fairy.cpp. -/
theorem redirect_inside_ends (v : Variant) (s : Bridge) (p : Proc)
    (h0 : p.fds 0 ≠ none) (h1 : p.fds 1 ≠ none) (hc : initCreatesBoth p = true) :
    (redirect v (stockfish_init s p).2.1 (stockfish_init s p).2.2).fds STDIN_FILENO =
      (stockfish_init s p).2.2.fds (CHILD_READ_FD (stockfish_init s p).2.1) ∧
    (redirect v (stockfish_init s p).2.1 (stockfish_init s p).2.2).fds STDOUT_FILENO =
      (stockfish_init s p).2.2.fds (CHILD_WRITE_FD (stockfish_init s p).2.1) ∧
    (stockfish_init s p).2.2.fds (CHILD_READ_FD (stockfish_init s p).2.1) =
      some (.pipeRead (p.nextPipe + 1)) ∧
    (stockfish_init s p).2.2.fds (CHILD_WRITE_FD (stockfish_init s p).2.1) =
      some (.pipeWrite p.nextPipe) ∧
    ((v = .nnue ∨ v = .sf16) →
      (redirect v (stockfish_init s p).2.1 (stockfish_init s p).2.2).fds
          (CHILD_READ_FD (stockfish_init s p).2.1) = none ∧
      (redirect v (stockfish_init s p).2.1 (stockfish_init s p).2.2).fds
          (CHILD_WRITE_FD (stockfish_init s p).2.1) = none) ∧
    ((v = .hce ∨ v = .fairy) →
      (redirect v (stockfish_init s p).2.1 (stockfish_init s p).2.2).fds
          (CHILD_READ_FD (stockfish_init s p).2.1) = some (.pipeRead (p.nextPipe + 1)) ∧
      (redirect v (stockfish_init s p).2.1 (stockfish_init s p).2.2).fds
          (CHILD_WRITE_FD (stockfish_init s p).2.1) = some (.pipeWrite p.nextPipe)) := by
  obtain ⟨r1, w1, r2, w2, h⟩ := stockfish_init_done s p hc
  have hr := h.two_le h0 h1
  have a1 := h.lt1
  have a2 := h.lt2
  have a3 := h.lt3
  obtain ⟨k0, k1, _, _, _⟩ := redirect_fds_of_open v h h0 h1
  have e1 : (stockfish_init s p).2.2.fds r2 = some (.pipeRead (p.nextPipe + 1)) := by
    rw [h.fds_eq]
    simp [show r2 ≠ w2 by omega]
  have e2 : (stockfish_init s p).2.2.fds w1 = some (.pipeWrite p.nextPipe) := by
    rw [h.fds_eq]
    simp [show w1 ≠ w2 by omega, show w1 ≠ r2 by omega]
  rw [h.child_read, h.child_write]
  refine ⟨by rw [e1]; exact k0, by rw [e2]; exact k1, e1, e2, ?_, ?_⟩
  · intro hv
    have hcl : redirect v (stockfish_init s p).2.1 (stockfish_init s p).2.2 =
        redirect_closing (stockfish_init s p).2.1 (stockfish_init s p).2.2 := by
      rcases hv with e | e
      · rw [e]; rfl
      · rw [e]; rfl
    rw [hcl, redirect_closing_fds h, redirect_closing_fds h]
    simp
  · intro hv
    have hkp : redirect v (stockfish_init s p).2.1 (stockfish_init s p).2.2 =
        redirect_keeping (stockfish_init s p).2.1 (stockfish_init s p).2.2 := by
      rcases hv with e | e
      · rw [e]; rfl
      · rw [e]; rfl
    rw [hkp, redirect_keeping_fds h, redirect_keeping_fds h, e1, e2]
    simp [show r2 ≠ 1 by omega, show r2 ≠ 0 by omega, show w1 ≠ 1 by omega,
      show w1 ≠ 0 by omega]

/-! ## The result of `stockfish_init` -/

/-- C9, as stated, fails: in a process whose descriptor limit leaves no room for a
pipe, the pipe call returns -1 and stockfish_init still returns 0. -/
theorem stockfish_init_zero_when_pipe_fails :
    (pipe proc_full (Bridge.initial.pipes PARENT_READ_PIPE)).1 = -1 ∧
    initCreatesBoth proc_full = false ∧
    (stockfish_init Bridge.initial proc_full).1 = 0 := by
  decide

/-- C9, amended: stockfish_init returns 0 in every case, whether or not its two
pipe-creation calls succeed; a failed creation is not reported to the caller. -/
theorem stockfish_init_always_zero (s : Bridge) (p : Proc) :
    (stockfish_init s p).1 = 0 := by
  unfold stockfish_init
  rfl

/-- The other failure: with descriptors 0, 1 and 2 open and a limit of 5, the first
creation succeeds on descriptors 3 and 4, the second fails, and stockfish_init
returns 0 all the same. -/
theorem stockfish_init_zero_when_second_pipe_fails :
    (sysPipe proc_five).1 = some (3, 4) ∧
    (pipe (sysPipe proc_five).2 (Bridge.initial.pipes PARENT_WRITE_PIPE)).1 = -1 ∧
    (stockfish_init Bridge.initial proc_five).1 = 0 := by
  decide

/-! ## The command channel -/

theorem write_rest (p : Proc) (fd : Nat) (data : List Nat) :
    (write p fd data).2.fds = p.fds ∧
    (write p fd data).2.fdLimit = p.fdLimit ∧ (write p fd data).2.nextPipe = p.nextPipe := by
  unfold write
  cases p.fds fd with
  | none => simp
  | some f => cases f <;> simp

theorem read_rest (p : Proc) (fd nbytes deliver : Nat) :
    (read p fd nbytes deliver).2.fds = p.fds ∧
    (read p fd nbytes deliver).2.fdLimit = p.fdLimit ∧
    (read p fd nbytes deliver).2.nextPipe = p.nextPipe := by
  unfold read
  cases p.fds fd with
  | none => simp
  | some f => cases f <;> simp

theorem strlen_nul_free (str : List Nat) (h : 0 ∉ str) : strlen (str ++ [0]) = str.length := by
  induction str with
  | nil => simp [strlen]
  | cons c cs ih =>
    have hc : c ≠ 0 := fun e => h (by simp [e])
    have hcs : 0 ∉ cs := fun e => h (by simp [e])
    simp [strlen, hc, ih hcs]

/-- A NUL-free command string passed to stockfish_stdin_write when PARENT_WRITE_FD is
the write end of pipe `c`: the call returns the length of the string and the string
is appended to the pipe. -/
theorem stdin_write_on_pipe (s : Bridge) (q : Proc) (c : Nat) (str : List Nat)
    (hw : q.fds (PARENT_WRITE_FD s) = some (.pipeWrite c)) (h : 0 ∉ str) :
    (stockfish_stdin_write s q (str ++ [0])).1 = (str.length : Int) ∧
    (stockfish_stdin_write s q (str ++ [0])).2.pipeData =
      setAt q.pipeData c (q.pipeData c ++ str) ∧
    (stockfish_stdin_write s q (str ++ [0])).2.fds = q.fds := by
  have ht : (str ++ [0]).take (strlen (str ++ [0])) = str := by
    rw [strlen_nul_free str h]
    simp
  simp only [stockfish_stdin_write, ht, write, hw]
  simp

/-- A read of the engine on descriptor 0 when it is the read end of pipe `c`. -/
theorem engine_read_on_pipe (q : Proc) (c nbytes deliver : Nat)
    (hr : q.fds STDIN_FILENO = some (.pipeRead c)) :
    (engine_step q (.readStdin nbytes deliver)).2 ++
        (engine_step q (.readStdin nbytes deliver)).1.pipeData c = q.pipeData c ∧
    (engine_step q (.readStdin nbytes deliver)).1.fds = q.fds := by
  simp only [engine_step, read, hr, ReadOutcome.data]
  simp [setAt]

theorem readable_on_pipe (q : Proc) (fd c : Nat) (hr : q.fds fd = some (.pipeRead c)) :
    readable q fd = q.pipeData c := by
  simp [readable, hr]

/-- Events on a channel whose two ends are PARENT_WRITE_FD and descriptor 0. -/
theorem io_run_channel (s : Bridge) (c : Nat) (evs : List IoEvent) :
    ∀ q : Proc, q.fds STDIN_FILENO = some (.pipeRead c) →
      q.fds (PARENT_WRITE_FD s) = some (.pipeWrite c) →
      (∀ str ∈ sent evs, 0 ∉ str) →
      (io_run s q evs).1 = (sent evs).map (fun str => (str.length : Int)) ∧
      (io_run s q evs).2.1 ++ readable (io_run s q evs).2.2 STDIN_FILENO =
        q.pipeData c ++ (sent evs).flatten := by
  induction evs with
  | nil =>
    intro q hr _ _
    simp [io_run, sent, readable_on_pipe q _ c hr]
  | cons ev evs ih =>
    intro q hr hw hnul
    cases ev with
    | send str =>
      have hs : 0 ∉ str := hnul str (by simp [sent])
      obtain ⟨e1, e2, e3⟩ := stdin_write_on_pipe s q c str hw hs
      have ih' := ih (stockfish_stdin_write s q (str ++ [0])).2 (by rw [e3]; exact hr)
        (by rw [e3]; exact hw) (fun t ht => hnul t (by simp [sent, ht]))
      simp only [io_run, sent, List.map_cons, List.flatten_cons]
      refine ⟨by rw [e1, ih'.1], ?_⟩
      rw [ih'.2, e2, setAt_same, List.append_assoc]
    | engineRead nbytes deliver =>
      obtain ⟨e1, e2⟩ := engine_read_on_pipe q c nbytes deliver hr
      have ih' := ih (engine_step q (.readStdin nbytes deliver)).1 (by rw [e2]; exact hr)
        (by rw [e2]; exact hw) (fun t ht => hnul t (by simpa [sent] using ht))
      simp only [io_run, sent]
      refine ⟨ih'.1, ?_⟩
      rw [List.append_assoc, ih'.2, ← List.append_assoc, e1]

/-- C4: after stockfish_init has created its two pipes and the redirection of
stockfish_main has run, for every series of calls of stockfish_stdin_write on
NUL-free command strings, interleaved in any way with reads of the engine on
descriptor 0, each call returns the length of its string, and the bytes the engine
has read from descriptor 0 followed by the bytes still readable there are the
concatenation of the strings in call order (for stockfish_nnue.cpp, and for the
three other files as well). -/
theorem stdin_write_stream (v : Variant) (s : Bridge) (p : Proc) (evs : List IoEvent)
    (hc : initCreatesBoth p = true) (hnul : ∀ str ∈ sent evs, 0 ∉ str) :
    (io_run (stockfish_init s p).2.1
        (redirect v (stockfish_init s p).2.1 (stockfish_init s p).2.2) evs).1 =
      (sent evs).map (fun str => (str.length : Int)) ∧
    (io_run (stockfish_init s p).2.1
        (redirect v (stockfish_init s p).2.1 (stockfish_init s p).2.2) evs).2.1 ++
      readable (io_run (stockfish_init s p).2.1
        (redirect v (stockfish_init s p).2.1 (stockfish_init s p).2.2) evs).2.2 STDIN_FILENO =
      (sent evs).flatten := by
  obtain ⟨r1, w1, r2, w2, h⟩ := stockfish_init_done s p hc
  have a1 := h.lt1
  have a2 := h.lt2
  have a3 := h.lt3
  have hk := redirect_keeping_fds h
  have hcl := redirect_closing_fds h
  have hw2 : (stockfish_init s p).2.2.fds w2 = some (.pipeWrite (p.nextPipe + 1)) := by
    rw [h.fds_eq]
    simp
  have f0 : (redirect v (stockfish_init s p).2.1 (stockfish_init s p).2.2).fds STDIN_FILENO =
      some (.pipeRead (p.nextPipe + 1)) := by
    rcases redirect_fds v (stockfish_init s p).2.1 (stockfish_init s p).2.2 0 with e | e
    · simp only [STDIN_FILENO]
      rw [e, hk]
      simp
    · simp only [STDIN_FILENO]
      rw [e, hcl]
      simp [show (0 : Nat) ≠ w1 by omega, show (0 : Nat) ≠ r2 by omega]
  have fw : (redirect v (stockfish_init s p).2.1 (stockfish_init s p).2.2).fds
      (PARENT_WRITE_FD (stockfish_init s p).2.1) = some (.pipeWrite (p.nextPipe + 1)) := by
    rw [h.parent_write]
    rcases redirect_fds v (stockfish_init s p).2.1 (stockfish_init s p).2.2 w2 with e | e
    · rw [e, hk, hw2]
      simp [show w2 ≠ 1 by omega, show w2 ≠ 0 by omega]
    · rw [e, hcl, hw2]
      simp [show w2 ≠ 1 by omega, show w2 ≠ 0 by omega, show w2 ≠ w1 by omega,
        show w2 ≠ r2 by omega]
  have hd : (redirect v (stockfish_init s p).2.1 (stockfish_init s p).2.2).pipeData
      (p.nextPipe + 1) = [] := by
    rw [(redirect_rest v _ _).1, h.data_eq]
    simp
  have := io_run_channel (stockfish_init s p).2.1 (p.nextPipe + 1) evs _ f0 fw hnul
  rw [hd] at this
  simpa using this

theorem stdin_write_stream_witness :
    (io_run (stockfish_init Bridge.initial proc0).2.1
        (redirect .nnue (stockfish_init Bridge.initial proc0).2.1
          (stockfish_init Bridge.initial proc0).2.2)
        [.send [117, 99, 105, 10], .engineRead 4096 2, .send [113, 117, 105, 116, 10]]).1 =
      (sent [.send [117, 99, 105, 10], .engineRead 4096 2,
        .send [113, 117, 105, 116, 10]]).map (fun str => (str.length : Int)) ∧
    (io_run (stockfish_init Bridge.initial proc0).2.1
        (redirect .nnue (stockfish_init Bridge.initial proc0).2.1
          (stockfish_init Bridge.initial proc0).2.2)
        [.send [117, 99, 105, 10], .engineRead 4096 2, .send [113, 117, 105, 116, 10]]).2.1 ++
      readable (io_run (stockfish_init Bridge.initial proc0).2.1
        (redirect .nnue (stockfish_init Bridge.initial proc0).2.1
          (stockfish_init Bridge.initial proc0).2.2)
        [.send [117, 99, 105, 10], .engineRead 4096 2,
          .send [113, 117, 105, 116, 10]]).2.2 STDIN_FILENO =
      (sent [.send [117, 99, 105, 10], .engineRead 4096 2,
        .send [113, 117, 105, 116, 10]]).flatten :=
  stdin_write_stream .nnue Bridge.initial proc0
    [.send [117, 99, 105, 10], .engineRead 4096 2, .send [113, 117, 105, 116, 10]]
    (by decide) (by decide)

/-! ## Two instances in one process -/

theorem cout_write_on_pipe (q : Proc) (o : Nat) (data : List Nat)
    (h : q.fds STDOUT_FILENO = some (.pipeWrite o)) :
    (cout_write q data).pipeData = setAt q.pipeData o (q.pipeData o ++ data) ∧
    (cout_write q data).fds = q.fds := by
  simp only [cout_write, write, h]
  simp

/-- Two instances of the same file share the globals of that file: after
stockfish_hce.cpp is initialised and started twice, `pipes` holds the descriptors of
the second stockfish_init, the bytes passed to stockfish_stdin_write go to the second
pair of pipes and are readable on descriptor 0, and the outside ends of the first
pair (descriptors 3 and 6) stay open with no variable naming them. -/
theorem same_file_second_init_overwrites :
    PARENT_READ_FD ((two_started .hce .hce proc0).1 .hce) = 7 ∧
    PARENT_WRITE_FD ((two_started .hce .hce proc0).1 .hce) = 10 ∧
    (two_started .hce .hce proc0).2.fds 3 = some (.pipeRead 0) ∧
    (two_started .hce .hce proc0).2.fds 6 = some (.pipeWrite 1) ∧
    readable (stockfish_stdin_write ((two_started .hce .hce proc0).1 .hce)
        (two_started .hce .hce proc0).2 ([88] ++ [0])).2 STDIN_FILENO = [88] := by
  decide

/-! ## The output channel -/

/-- The engine actions when descriptor 1 is the write end of pipe `o` and descriptor 0
is not the read end of that pipe: the descriptor table is left alone and the output
of the engine is appended to pipe `o`. -/
theorem engine_run_on_pipe (o : Nat) (ops : List EngineOp) :
    ∀ q : Proc, q.fds STDIN_FILENO ≠ some (.pipeRead o) →
      q.fds STDOUT_FILENO = some (.pipeWrite o) →
      (engine_run q ops).1.fds = q.fds ∧
      (engine_run q ops).1.pipeData o = q.pipeData o ++ (engine_output ops).flatten := by
  induction ops with
  | nil => intro q _ _; simp [engine_run, engine_output]
  | cons op ops ih =>
    intro q hr hw
    cases op with
    | readStdin nbytes deliver =>
      have e1 : (engine_step q (.readStdin nbytes deliver)).1.fds = q.fds :=
        (read_rest q STDIN_FILENO nbytes deliver).1
      have e2 : (engine_step q (.readStdin nbytes deliver)).1.pipeData o = q.pipeData o := by
        simp only [engine_step, read]
        cases hf : q.fds STDIN_FILENO with
        | none => rfl
        | some f =>
          cases f with
          | pipeRead c =>
            have hco : o ≠ c := by
              intro e
              rw [hf, e] at hr
              exact hr rfl
            exact setAt_other _ _ _ _ hco
          | pipeWrite c => rfl
          | other i => rfl
      have ih' := ih (engine_step q (.readStdin nbytes deliver)).1 (by rw [e1]; exact hr)
        (by rw [e1]; exact hw)
      simp only [engine_run, engine_output]
      exact ⟨ih'.1.trans e1, by rw [ih'.2, e2]⟩
    | writeStdout data =>
      obtain ⟨e2, e1⟩ := cout_write_on_pipe q o data hw
      have es : (engine_step q (.writeStdout data)).1 = cout_write q data := rfl
      have ih' := ih (engine_step q (.writeStdout data)).1 (by rw [es, e1]; exact hr)
        (by rw [es, e1]; exact hw)
      simp only [engine_run, engine_output, List.flatten_cons]
      refine ⟨ih'.1.trans (by rw [es, e1]), ?_⟩
      rw [ih'.2, es, e2, setAt_same, List.append_assoc]

/-- What stockfish_main puts on its standard output, in any process and for any
globals: when after the redirection step descriptor 1 is the write end of a pipe
that descriptor 0 does not read, that pipe receives the output of the engine and
then the sentinel, and nothing else. -/
theorem stockfish_main_on_pipe (v : Variant) (e : Engine) (s : Bridge) (p : Proc) (o : Nat)
    (hr : (redirect v s p).fds STDIN_FILENO ≠ some (.pipeRead o))
    (hw : (redirect v s p).fds STDOUT_FILENO = some (.pipeWrite o)) :
    (engine_run (redirect v s p) e.ops).1.pipeData o =
      p.pipeData o ++ (engine_output e.ops).flatten ∧
    (write (engine_run (redirect v s p) e.ops).1 STDOUT_FILENO QUITOK).1 = 7 ∧
    (stockfish_main v e s p).2.pipeData o =
      p.pipeData o ++ (engine_output e.ops).flatten ++ QUITOK ∧
    (stockfish_main v e s p).2.fds = (redirect v s p).fds := by
  obtain ⟨f, d⟩ := engine_run_on_pipe o e.ops (redirect v s p) hr hw
  have hw2 : (engine_run (redirect v s p) e.ops).1.fds STDOUT_FILENO = some (.pipeWrite o) := by
    rw [f]
    exact hw
  obtain ⟨d2, f2⟩ := cout_write_on_pipe _ o QUITOK hw2
  rw [(redirect_rest v s p).1] at d
  refine ⟨d, ?_, ?_, ?_⟩
  · simp only [write, hw2]
    rfl
  · simp only [stockfish_main]
    rw [d2, setAt_same, d]
  · simp only [stockfish_main]
    rw [f2, f]

/-- C5: in every variant and for every behaviour of the engine entry point, after a
stockfish_init that created both pipes in a process with descriptors 0 and 1 open,
stockfish_main returns the exit code of the engine and writes to its standard
output exactly the output of the engine followed by the sentinel "quitok\n": when
the engine entry point returns, the inside-to-outside pipe holds the output of the
engine and nothing else; the write of the sentinel on descriptor 1 is then accepted
in full, and when stockfish_main returns the bytes readable on PARENT_READ_FD are the
output of the engine followed by one sentinel, with nothing after it. -/
theorem stockfish_main_writes_output_then_sentinel (v : Variant) (e : Engine) (s : Bridge)
    (p : Proc) (h0 : p.fds 0 ≠ none) (h1 : p.fds 1 ≠ none)
    (hc : initCreatesBoth p = true) :
    (stockfish_main v e (stockfish_init s p).2.1 (stockfish_init s p).2.2).1 = e.exitCode ∧
    readable (engine_run (redirect v (stockfish_init s p).2.1 (stockfish_init s p).2.2)
        e.ops).1 (PARENT_READ_FD (stockfish_init s p).2.1) =
      (engine_output e.ops).flatten ∧
    (write (engine_run (redirect v (stockfish_init s p).2.1 (stockfish_init s p).2.2)
        e.ops).1 STDOUT_FILENO QUITOK).1 = 7 ∧
    readable (stockfish_main v e (stockfish_init s p).2.1 (stockfish_init s p).2.2).2
        (PARENT_READ_FD (stockfish_init s p).2.1) =
      (engine_output e.ops).flatten ++ QUITOK := by
  obtain ⟨r1, w1, r2, w2, h⟩ := stockfish_init_done s p hc
  obtain ⟨k0, k1, kr, _, _⟩ := redirect_fds_of_open v h h0 h1
  have hd : (stockfish_init s p).2.2.pipeData p.nextPipe = [] := by
    rw [h.data_eq]
    simp
  have hr : (redirect v (stockfish_init s p).2.1 (stockfish_init s p).2.2).fds STDIN_FILENO ≠
      some (.pipeRead p.nextPipe) := by
    simp only [STDIN_FILENO]
    rw [k0]
    simp
  obtain ⟨m1, m2, m3, m4⟩ := stockfish_main_on_pipe v e _ _ p.nextPipe hr k1
  obtain ⟨f, _⟩ := engine_run_on_pipe p.nextPipe e.ops _ hr k1
  rw [hd, List.nil_append] at m1 m3
  rw [h.parent_read]
  refine ⟨rfl, ?_, m2, ?_⟩
  · rw [readable_on_pipe _ _ _ (by rw [f]; exact kr), m1]
  · rw [readable_on_pipe _ _ _ (by rw [m4]; exact kr), m3]

theorem stockfish_main_writes_output_then_sentinel_witness :
    (stockfish_main .fairy
        { ops := [.writeStdout [105, 100, 10], .readStdin 4096 5, .writeStdout [111, 107, 10]]
          exitCode := 0 }
        (stockfish_init Bridge.initial proc0).2.1 (stockfish_init Bridge.initial proc0).2.2).1 =
      0 ∧
    readable (engine_run (redirect .fairy (stockfish_init Bridge.initial proc0).2.1
        (stockfish_init Bridge.initial proc0).2.2)
        [.writeStdout [105, 100, 10], .readStdin 4096 5, .writeStdout [111, 107, 10]]).1
        (PARENT_READ_FD (stockfish_init Bridge.initial proc0).2.1) =
      [105, 100, 10, 111, 107, 10] ∧
    (write (engine_run (redirect .fairy (stockfish_init Bridge.initial proc0).2.1
        (stockfish_init Bridge.initial proc0).2.2)
        [.writeStdout [105, 100, 10], .readStdin 4096 5, .writeStdout [111, 107, 10]]).1
        STDOUT_FILENO QUITOK).1 = 7 ∧
    readable (stockfish_main .fairy
        { ops := [.writeStdout [105, 100, 10], .readStdin 4096 5, .writeStdout [111, 107, 10]]
          exitCode := 0 }
        (stockfish_init Bridge.initial proc0).2.1 (stockfish_init Bridge.initial proc0).2.2).2
        (PARENT_READ_FD (stockfish_init Bridge.initial proc0).2.1) =
      [105, 100, 10, 111, 107, 10] ++ QUITOK :=
  stockfish_main_writes_output_then_sentinel .fairy
    { ops := [.writeStdout [105, 100, 10], .readStdin 4096 5, .writeStdout [111, 107, 10]]
      exitCode := 0 }
    Bridge.initial proc0 (by decide) (by decide) (by decide)

end MultiStockfish
